import Mathlib

/-!
Verification of the dispute module (contracts/src/dispute/lib.rs).

The contract state is a shallow embedding of the Soroban keyed storage:
each storage namespace is an association list keyed by the composite key
used in the source.  Addresses are modelled as `Nat`, `i128` values as
unbounded `Int` (the claims under study do not exercise machine-width
overflow), `u64`/`u32` values as `Nat`.  The division on `i128` is the
truncating division of Rust, `Int.tdiv`.  The keccak256 host primitive is
an abstract parameter `dg : List Nat → List Nat`; `require_auth` is the
external identity capability and always grants (it is out of scope per the
spec).  A panicking `assert!`/`expect` in the source is an error return;
the hosting ledger discards every storage write of a failed invocation, so
the transactional entry point `step` restores the pre-call store on error.
-/

/-- Lookup in an association list, first match wins. -/
def kvGet {κ α : Type} [DecidableEq κ] : List (κ × α) → κ → Option α
  | [], _ => none
  | (k', v) :: t, k => if k' = k then some v else kvGet t k

/-- Update an association list: replace the first binding of the key,
or append a fresh binding when the key is absent. -/
def kvSet {κ α : Type} [DecidableEq κ] : List (κ × α) → κ → α → List (κ × α)
  | [], k, v => [(k, v)]
  | (k', v') :: t, k, v => if k' = k then (k, v) :: t else (k', v') :: kvSet t k v

/-- The six phases of a dispute, in protocol order. -/
inductive DisputePhase where
  | Evidence
  | JurySelection
  | CommitVote
  | RevealVote
  | Appeal
  | Finalized
deriving DecidableEq, Repr

/-- The three possible verdict symbols. -/
inductive Verdict where
  | passenger
  | airline
  | tie
deriving DecidableEq, Repr

/-- The `Dispute` record of the source, field for field. -/
structure Dispute where
  dispute_id : Nat
  refund_request_id : Nat
  passenger : Nat
  airline : Nat
  amount : Int
  passenger_stake : Int
  airline_stake : Int
  phase : DisputePhase
  evidence_deadline : Nat
  voting_deadline : Nat
  reveal_deadline : Nat
  appeal_deadline : Nat
  passenger_evidence_count : Nat
  airline_evidence_count : Nat
  jury_size : Nat
  votes_for_passenger : Nat
  votes_for_airline : Nat
  verdict : Option Verdict
  appealed : Bool
  created_at : Nat
  finalized_at : Option Nat
deriving DecidableEq, Repr

/-- The `Evidence` record; the description symbol is an opaque `Nat`. -/
structure Evidence where
  dispute_id : Nat
  submitter : Nat
  evidence_hash : List Nat
  description : Nat
  submitted_at : Nat
deriving DecidableEq, Repr

/-- The `JurorSelection` record. -/
structure JurorSelection where
  dispute_id : Nat
  juror : Nat
  token_balance : Int
  selected_at : Nat
deriving DecidableEq, Repr

/-- The `VoteCommit` record. -/
structure VoteCommit where
  dispute_id : Nat
  juror : Nat
  commit_hash : List Nat
  committed_at : Nat
deriving DecidableEq, Repr

/-- The `VoteReveal` record. -/
structure VoteReveal where
  dispute_id : Nat
  juror : Nat
  vote_for_passenger : Bool
  salt : List Nat
  revealed_at : Nat
deriving DecidableEq, Repr

/-- The singleton `DisputeConfig` record. -/
structure DisputeConfig where
  min_stake_percentage : Nat
  jury_size : Nat
  evidence_period : Nat
  voting_period : Nat
  reveal_period : Nat
  appeal_period : Nat
  appeal_stake_multiplier : Nat
  jury_reward_pool_percentage : Nat
deriving DecidableEq, Repr

/-- Named failure kinds, one per `assert!` / `expect` message of the module,
using the spec's error vocabulary. -/
inductive Err where
  | NoConfig
  | ConfigExists
  | DisputeNotFound
  | InsufficientStake
  | Unauthorized
  | WrongPhase
  | AlreadyResponded
  | PeriodEnded
  | PeriodNotEnded
  | NotAParty
  | NotEligible
  | AlreadySelected
  | PartyCannotJuror
  | JuryFull
  | NotAJuror
  | AlreadyCommitted
  | NoCommitFound
  | AlreadyRevealed
  | InvalidReveal
  | NoVotesRevealed
  | NoVerdict
  | TieVerdict
  | AlreadyAppealed
  | OnlyLoserAppeals
  | NoVoteRevealed
  | DidNotVoteMajority
  | MathOverflow
deriving DecidableEq, Repr

/-- Notifications published to the external sink, one constructor per
`env.events().publish` site. -/
inductive Event where
  | contractInit (jury_size : Nat)
  | filed (dispute_id passenger airline : Nat) (amount : Int)
  | responded (dispute_id airline : Nat) (stake : Int)
  | evidenceSubmitted (dispute_id submitter : Nat) (hash : List Nat)
  | jurorSelected (dispute_id juror : Nat) (token_balance : Int)
  | voteCommitted (dispute_id juror : Nat)
  | phaseReveal (dispute_id : Nat)
  | voteRevealed (dispute_id juror : Nat) (vote : Bool)
  | finalized (dispute_id : Nat) (verdict : Verdict)
  | appealFiled (dispute_id appellant : Nat) (stake : Int)
  | verdictExecuted (dispute_id winner loser : Nat) (amount pool : Int)
  | rewardClaimed (dispute_id juror : Nat) (reward : Int)
deriving DecidableEq, Repr

/-- The keyed persistent store of the contract: one association list per
storage namespace, keyed exactly as in `DisputeStorageKey`. -/
structure Store where
  config : Option DisputeConfig
  dispute_count : Nat
  disputes : List (Nat × Dispute)
  evidences : List ((Nat × Nat) × Evidence)
  jurors : List ((Nat × Nat) × JurorSelection)
  is_juror : List ((Nat × Nat) × Bool)
  commits : List ((Nat × Nat) × VoteCommit)
  reveals : List ((Nat × Nat) × VoteReveal)
  stakes : List ((Nat × Nat) × Int)
deriving DecidableEq, Repr

/-- The empty ledger before any call. -/
def initialStore : Store := ⟨none, 0, [], [], [], [], [], [], []⟩

def setDispute (s : Store) (dispute_id : Nat) (d : Dispute) : Store :=
  { s with disputes := kvSet s.disputes dispute_id d }

def setEvidence (s : Store) (dispute_id index : Nat) (e : Evidence) : Store :=
  { s with evidences := kvSet s.evidences (dispute_id, index) e }

def setJuror (s : Store) (dispute_id index : Nat) (j : JurorSelection) : Store :=
  { s with jurors := kvSet s.jurors (dispute_id, index) j }

def markJuror (s : Store) (dispute_id address : Nat) : Store :=
  { s with is_juror := kvSet s.is_juror (dispute_id, address) true }

def setCommit (s : Store) (dispute_id juror : Nat) (c : VoteCommit) : Store :=
  { s with commits := kvSet s.commits (dispute_id, juror) c }

def setReveal (s : Store) (dispute_id juror : Nat) (r : VoteReveal) : Store :=
  { s with reveals := kvSet s.reveals (dispute_id, juror) r }

def setStake (s : Store) (dispute_id party : Nat) (amount : Int) : Store :=
  { s with stakes := kvSet s.stakes (dispute_id, party) amount }

/-- Result of one contract invocation: failure kind (if any), the store as
left by the body's writes, the published events, and the return value. -/
structure CallOut (α : Type) where
  err : Option Err
  store : Store
  events : List Event
  ret : α
deriving DecidableEq, Repr

/-- The 33-byte preimage hashed by `reveal_vote`: one vote byte then the
salt bytes. -/
def hashInput (vote_for_passenger : Bool) (salt : List Nat) : List Nat :=
  (if vote_for_passenger then 1 else 0) :: salt

/-- Model of `initialize`: records the singleton config, once. -/
def initConfig (s : Store) (min_stake_percentage jury_size : Nat)
    (evidence_period voting_period reveal_period appeal_period : Nat)
    (appeal_stake_multiplier jury_reward_pool_percentage : Nat) : CallOut Unit :=
  if s.config.isSome then ⟨some .ConfigExists, s, [], ()⟩
  else
    let config : DisputeConfig :=
      ⟨min_stake_percentage, jury_size, evidence_period, voting_period,
        reveal_period, appeal_period, appeal_stake_multiplier,
        jury_reward_pool_percentage⟩
    ⟨none, { s with config := some config }, [.contractInit jury_size], ()⟩

/-- Model of `file_dispute`: stake floor, id allocation, fresh dispute record. -/
def file_dispute (s : Store) (now : Nat) (passenger airline refund_request_id : Nat)
    (amount passenger_stake : Int) : CallOut Nat :=
  match s.config with
  | none => ⟨some .NoConfig, s, [], 0⟩
  | some config =>
    let min_stake : Int := (amount * (config.min_stake_percentage : Int)).tdiv 10000
    if passenger_stake < min_stake then ⟨some .InsufficientStake, s, [], 0⟩
    else
      let dispute_id := s.dispute_count + 1
      let s1 := { s with dispute_count := dispute_id }
      let dispute : Dispute :=
        { dispute_id := dispute_id
          refund_request_id := refund_request_id
          passenger := passenger
          airline := airline
          amount := amount
          passenger_stake := passenger_stake
          airline_stake := 0
          phase := .Evidence
          evidence_deadline := now + config.evidence_period
          voting_deadline := now + config.evidence_period + config.voting_period
          reveal_deadline := now + config.evidence_period + config.voting_period
            + config.reveal_period
          appeal_deadline := now + config.evidence_period + config.voting_period
            + config.reveal_period + config.appeal_period
          passenger_evidence_count := 0
          airline_evidence_count := 0
          jury_size := config.jury_size
          votes_for_passenger := 0
          votes_for_airline := 0
          verdict := none
          appealed := false
          created_at := now
          finalized_at := none }
      let s2 := setDispute s1 dispute_id dispute
      let s3 := setStake s2 dispute_id passenger passenger_stake
      ⟨none, s3, [.filed dispute_id passenger airline amount], dispute_id⟩

/-- Model of `airline_respond`: records the respondent's stake during evidence. -/
def airline_respond (s : Store) (airline dispute_id : Nat) (airline_stake : Int) :
    CallOut Unit :=
  match kvGet s.disputes dispute_id with
  | none => ⟨some .DisputeNotFound, s, [], ()⟩
  | some dispute =>
    if ¬ dispute.airline = airline then ⟨some .Unauthorized, s, [], ()⟩
    else if ¬ dispute.phase = .Evidence then ⟨some .WrongPhase, s, [], ()⟩
    else if ¬ dispute.airline_stake = 0 then ⟨some .AlreadyResponded, s, [], ()⟩
    else match s.config with
      | none => ⟨some .NoConfig, s, [], ()⟩
      | some config =>
        let min_stake : Int := (dispute.amount * (config.min_stake_percentage : Int)).tdiv 10000
        if airline_stake < min_stake then ⟨some .InsufficientStake, s, [], ()⟩
        else
          let d' := { dispute with airline_stake := airline_stake }
          let s1 := setDispute s dispute_id d'
          let s2 := setStake s1 dispute_id airline airline_stake
          ⟨none, s2, [.responded dispute_id airline airline_stake], ()⟩

/-- Model of `submit_evidence`: appends a party's evidence record at the next
per-party index. -/
def submit_evidence (s : Store) (now submitter dispute_id : Nat)
    (evidence_hash : List Nat) (description : Nat) : CallOut Unit :=
  match kvGet s.disputes dispute_id with
  | none => ⟨some .DisputeNotFound, s, [], ()⟩
  | some dispute =>
    if ¬ now ≤ dispute.evidence_deadline then ⟨some .PeriodEnded, s, [], ()⟩
    else if ¬ dispute.phase = .Evidence then ⟨some .WrongPhase, s, [], ()⟩
    else if ¬ (submitter = dispute.passenger ∨ submitter = dispute.airline) then
      ⟨some .NotAParty, s, [], ()⟩
    else
      let updated :=
        if submitter = dispute.passenger then
          ({ dispute with passenger_evidence_count := dispute.passenger_evidence_count + 1 },
            dispute.passenger_evidence_count)
        else
          ({ dispute with airline_evidence_count := dispute.airline_evidence_count + 1 },
            dispute.airline_evidence_count)
      let evidence : Evidence := ⟨dispute_id, submitter, evidence_hash, description, now⟩
      let s1 := setEvidence s dispute_id updated.2 evidence
      let s2 := setDispute s1 dispute_id updated.1
      ⟨none, s2, [.evidenceSubmitted dispute_id submitter evidence_hash], ()⟩

/-- The linear scan of `get_juror_count`: walk slots from `count` while a
record is present, with at most `fuel` steps left before `jury_size` is
reached. -/
def jurorScan (s : Store) (dispute_id : Nat) : Nat → Nat → Nat
  | count, 0 => count
  | count, fuel + 1 =>
    if (kvGet s.jurors (dispute_id, count)).isSome then
      jurorScan s dispute_id (count + 1) fuel
    else count

/-- Model of `get_juror_count`: number of filled panel slots, by linear scan. -/
def get_juror_count (s : Store) (dispute_id : Nat) : Option Nat :=
  (kvGet s.disputes dispute_id).map (fun d => jurorScan s dispute_id 0 d.jury_size)

/-- Model of `select_as_juror`: lazy phase advance, eligibility checks, slot
write, membership mark, and panel-full phase advance. -/
def select_as_juror (s : Store) (now juror dispute_id : Nat) (token_balance : Int) :
    CallOut Unit :=
  match kvGet s.disputes dispute_id with
  | none => ⟨some .DisputeNotFound, s, [], ()⟩
  | some dispute0 =>
    let adv :=
      if dispute0.evidence_deadline < now ∧ dispute0.phase = .Evidence then
        let d := { dispute0 with phase := DisputePhase.JurySelection }
        (d, setDispute s dispute_id d)
      else (dispute0, s)
    let dispute := adv.1
    let s1 := adv.2
    if ¬ (dispute.phase = .JurySelection ∨ dispute.phase = .CommitVote) then
      ⟨some .WrongPhase, s1, [], ()⟩
    else if ¬ 0 < token_balance then ⟨some .NotEligible, s1, [], ()⟩
    else if (kvGet s1.is_juror (dispute_id, juror)).isSome then
      ⟨some .AlreadySelected, s1, [], ()⟩
    else if juror = dispute.passenger ∨ juror = dispute.airline then
      ⟨some .PartyCannotJuror, s1, [], ()⟩
    else
      match get_juror_count s1 dispute_id with
      | none => ⟨some .DisputeNotFound, s1, [], ()⟩
      | some juror_count =>
        if ¬ juror_count < dispute.jury_size then ⟨some .JuryFull, s1, [], ()⟩
        else
          let selection : JurorSelection := ⟨dispute_id, juror, token_balance, now⟩
          let s2 := setJuror s1 dispute_id juror_count selection
          let s3 := markJuror s2 dispute_id juror
          let s4 :=
            if dispute.jury_size ≤ juror_count + 1 then
              setDispute s3 dispute_id { dispute with phase := .CommitVote }
            else s3
          ⟨none, s4, [.jurorSelected dispute_id juror token_balance], ()⟩

/-- Model of `commit_vote`: stores a juror's opaque commitment. -/
def commit_vote (s : Store) (now juror dispute_id : Nat) (commit_hash : List Nat) :
    CallOut Unit :=
  match kvGet s.disputes dispute_id with
  | none => ⟨some .DisputeNotFound, s, [], ()⟩
  | some dispute =>
    if ¬ now ≤ dispute.voting_deadline then ⟨some .PeriodEnded, s, [], ()⟩
    else if ¬ dispute.phase = .CommitVote then ⟨some .WrongPhase, s, [], ()⟩
    else if ¬ (kvGet s.is_juror (dispute_id, juror)).isSome then ⟨some .NotAJuror, s, [], ()⟩
    else if (kvGet s.commits (dispute_id, juror)).isSome then
      ⟨some .AlreadyCommitted, s, [], ()⟩
    else
      let commit : VoteCommit := ⟨dispute_id, juror, commit_hash, now⟩
      ⟨none, setCommit s dispute_id juror commit, [.voteCommitted dispute_id juror], ()⟩

/-- Model of `advance_to_reveal`: permissionless commit-to-reveal phase change. -/
def advance_to_reveal (s : Store) (now dispute_id : Nat) : CallOut Unit :=
  match kvGet s.disputes dispute_id with
  | none => ⟨some .DisputeNotFound, s, [], ()⟩
  | some dispute =>
    if ¬ dispute.voting_deadline < now then ⟨some .PeriodNotEnded, s, [], ()⟩
    else if ¬ dispute.phase = .CommitVote then ⟨some .WrongPhase, s, [], ()⟩
    else
      let d' := { dispute with phase := DisputePhase.RevealVote }
      ⟨none, setDispute s dispute_id d', [.phaseReveal dispute_id], ()⟩

/-- Model of `reveal_vote`: checks the commitment digest, stores the reveal,
and bumps the matching tally. -/
def reveal_vote (dg : List Nat → List Nat) (s : Store) (now juror dispute_id : Nat)
    (vote_for_passenger : Bool) (salt : List Nat) : CallOut Unit :=
  match kvGet s.disputes dispute_id with
  | none => ⟨some .DisputeNotFound, s, [], ()⟩
  | some dispute =>
    if ¬ now ≤ dispute.reveal_deadline then ⟨some .PeriodEnded, s, [], ()⟩
    else if ¬ dispute.phase = .RevealVote then ⟨some .WrongPhase, s, [], ()⟩
    else match kvGet s.commits (dispute_id, juror) with
      | none => ⟨some .NoCommitFound, s, [], ()⟩
      | some commit =>
        if (kvGet s.reveals (dispute_id, juror)).isSome then
          ⟨some .AlreadyRevealed, s, [], ()⟩
        else
          let computed_hash := dg (hashInput vote_for_passenger salt)
          if ¬ computed_hash = commit.commit_hash then ⟨some .InvalidReveal, s, [], ()⟩
          else
            let reveal : VoteReveal := ⟨dispute_id, juror, vote_for_passenger, salt, now⟩
            let s1 := setReveal s dispute_id juror reveal
            let d' :=
              if vote_for_passenger then
                { dispute with votes_for_passenger := dispute.votes_for_passenger + 1 }
              else
                { dispute with votes_for_airline := dispute.votes_for_airline + 1 }
            let s2 := setDispute s1 dispute_id d'
            ⟨none, s2, [.voteRevealed dispute_id juror vote_for_passenger], ()⟩

/-- Model of `finalize_dispute`: majority verdict and transition to `Appeal`. -/
def finalize_dispute (s : Store) (now dispute_id : Nat) : CallOut Unit :=
  match kvGet s.disputes dispute_id with
  | none => ⟨some .DisputeNotFound, s, [], ()⟩
  | some dispute =>
    if ¬ dispute.reveal_deadline < now then ⟨some .PeriodNotEnded, s, [], ()⟩
    else if ¬ dispute.phase = .RevealVote then ⟨some .WrongPhase, s, [], ()⟩
    else if ¬ 0 < dispute.votes_for_passenger + dispute.votes_for_airline then
      ⟨some .NoVotesRevealed, s, [], ()⟩
    else
      let verdict :=
        if dispute.votes_for_airline < dispute.votes_for_passenger then Verdict.passenger
        else if dispute.votes_for_passenger < dispute.votes_for_airline then Verdict.airline
        else Verdict.tie
      let d' := { dispute with
        verdict := some verdict
        phase := DisputePhase.Appeal
        finalized_at := some now }
      ⟨none, setDispute s dispute_id d', [.finalized dispute_id verdict], ()⟩

/-- Model of `file_appeal`: losing party restarts the pipeline with fresh
deadlines, zeroed tallies, cleared verdict and `appealed := true`. -/
def file_appeal (s : Store) (now appellant dispute_id : Nat) (appeal_stake : Int) :
    CallOut Unit :=
  match kvGet s.disputes dispute_id with
  | none => ⟨some .DisputeNotFound, s, [], ()⟩
  | some dispute =>
    if ¬ now ≤ dispute.appeal_deadline then ⟨some .PeriodEnded, s, [], ()⟩
    else if ¬ dispute.phase = .Appeal then ⟨some .WrongPhase, s, [], ()⟩
    else if dispute.appealed then ⟨some .AlreadyAppealed, s, [], ()⟩
    else match dispute.verdict with
      | none => ⟨some .NoVerdict, s, [], ()⟩
      | some verdict =>
        if ¬ ((verdict = .airline ∧ appellant = dispute.passenger)
            ∨ (verdict = .passenger ∧ appellant = dispute.airline)) then
          ⟨some .OnlyLoserAppeals, s, [], ()⟩
        else match s.config with
          | none => ⟨some .NoConfig, s, [], ()⟩
          | some config =>
            let required_stake : Int :=
              (dispute.amount * (config.appeal_stake_multiplier : Int)).tdiv 10000
            if appeal_stake < required_stake then ⟨some .InsufficientStake, s, [], ()⟩
            else
              let new_evidence_deadline := now + config.evidence_period
              let d' := { dispute with
                appealed := true
                phase := .Evidence
                evidence_deadline := new_evidence_deadline
                voting_deadline := new_evidence_deadline + config.voting_period
                reveal_deadline := new_evidence_deadline + config.voting_period
                  + config.reveal_period
                appeal_deadline := new_evidence_deadline + config.voting_period
                  + config.reveal_period + config.appeal_period
                votes_for_passenger := 0
                votes_for_airline := 0
                verdict := none }
              let s1 := setDispute s dispute_id d'
              let current_stake := (kvGet s1.stakes (dispute_id, appellant)).getD 0
              let s2 := setStake s1 dispute_id appellant (current_stake + appeal_stake)
              ⟨none, s2, [.appealFiled dispute_id appellant appeal_stake], ()⟩

/-- Model of `execute_verdict`: appeal-deadline gate only in phase `Appeal`,
rejects ties, moves to `Finalized` and notifies the escrow collaborator. -/
def execute_verdict (s : Store) (now dispute_id : Nat) : CallOut Unit :=
  match kvGet s.disputes dispute_id with
  | none => ⟨some .DisputeNotFound, s, [], ()⟩
  | some dispute =>
    if dispute.phase = .Appeal ∧ ¬ dispute.appeal_deadline < now then
      ⟨some .PeriodNotEnded, s, [], ()⟩
    else match dispute.verdict with
      | none => ⟨some .NoVerdict, s, [], ()⟩
      | some verdict =>
        if verdict = .tie then ⟨some .TieVerdict, s, [], ()⟩
        else
          let s1 := setDispute s dispute_id { dispute with phase := .Finalized }
          match s1.config with
          | none => ⟨some .NoConfig, s1, [], ()⟩
          | some config =>
            let jury_reward_pool : Int :=
              ((dispute.passenger_stake + dispute.airline_stake)
                * (config.jury_reward_pool_percentage : Int)).tdiv 10000
            let wl :=
              if verdict = .passenger then (dispute.passenger, dispute.airline)
              else (dispute.airline, dispute.passenger)
            ⟨none, s1,
              [.verdictExecuted dispute_id wl.1 wl.2 dispute.amount jury_reward_pool], ()⟩

/-- Model of `claim_juror_reward`: equal share of the reward pool for a juror
whose reveal matches the verdict; performs no storage write.  The `i128`
division by `winning_votes` traps on zero, modelled as `MathOverflow`. -/
def claim_juror_reward (s : Store) (juror dispute_id : Nat) : CallOut Int :=
  match kvGet s.disputes dispute_id with
  | none => ⟨some .DisputeNotFound, s, [], 0⟩
  | some dispute =>
    if ¬ dispute.phase = .Finalized then ⟨some .WrongPhase, s, [], 0⟩
    else match kvGet s.reveals (dispute_id, juror) with
      | none => ⟨some .NoVoteRevealed, s, [], 0⟩
      | some reveal =>
        match dispute.verdict with
        | none => ⟨some .NoVerdict, s, [], 0⟩
        | some verdict =>
          if ¬ ((verdict = .passenger ∧ reveal.vote_for_passenger = true)
              ∨ (verdict = .airline ∧ reveal.vote_for_passenger = false)) then
            ⟨some .DidNotVoteMajority, s, [], 0⟩
          else match s.config with
            | none => ⟨some .NoConfig, s, [], 0⟩
            | some config =>
              let jury_reward_pool : Int :=
                ((dispute.passenger_stake + dispute.airline_stake)
                  * (config.jury_reward_pool_percentage : Int)).tdiv 10000
              let winning_votes : Nat :=
                if verdict = .passenger then dispute.votes_for_passenger
                else dispute.votes_for_airline
              if winning_votes = 0 then ⟨some .MathOverflow, s, [], 0⟩
              else
                let reward := jury_reward_pool.tdiv (winning_votes : Int)
                ⟨none, s, [.rewardClaimed dispute_id juror reward], reward⟩

/-- One public invocation of the module, with its ledger timestamp. -/
inductive Op where
  | initCfg (min_stake_percentage jury_size : Nat)
      (evidence_period voting_period reveal_period appeal_period : Nat)
      (appeal_stake_multiplier jury_reward_pool_percentage : Nat)
  | fileDispute (now passenger airline refund_request_id : Nat)
      (amount passenger_stake : Int)
  | airlineRespond (airline dispute_id : Nat) (airline_stake : Int)
  | submitEvidence (now submitter dispute_id : Nat) (evidence_hash : List Nat)
      (description : Nat)
  | selectAsJuror (now juror dispute_id : Nat) (token_balance : Int)
  | commitVote (now juror dispute_id : Nat) (commit_hash : List Nat)
  | advanceToReveal (now dispute_id : Nat)
  | revealVote (now juror dispute_id : Nat) (vote_for_passenger : Bool) (salt : List Nat)
  | finalizeDispute (now dispute_id : Nat)
  | fileAppeal (now appellant dispute_id : Nat) (appeal_stake : Int)
  | executeVerdict (now dispute_id : Nat)
  | claimReward (juror dispute_id : Nat)
deriving DecidableEq, Repr

/-- Forget a call's return value. -/
def dropRet {α : Type} (c : CallOut α) : CallOut Unit := ⟨c.err, c.store, c.events, ()⟩

/-- Run the body of one invocation, keeping its writes as produced. -/
def exec (dg : List Nat → List Nat) (s : Store) : Op → CallOut Unit
  | .initCfg a b c d e f g h => initConfig s a b c d e f g h
  | .fileDispute now p a rr amt stk => dropRet (file_dispute s now p a rr amt stk)
  | .airlineRespond a id stk => airline_respond s a id stk
  | .submitEvidence now sub id h desc => submit_evidence s now sub id h desc
  | .selectAsJuror now j id tb => select_as_juror s now j id tb
  | .commitVote now j id h => commit_vote s now j id h
  | .advanceToReveal now id => advance_to_reveal s now id
  | .revealVote now j id v salt => reveal_vote dg s now j id v salt
  | .finalizeDispute now id => finalize_dispute s now id
  | .fileAppeal now a id stk => file_appeal s now a id stk
  | .executeVerdict now id => execute_verdict s now id
  | .claimReward j id => dropRet (claim_juror_reward s j id)

/-- The hosting ledger's transaction boundary: a failed invocation leaves
the persistent store exactly as before the call. -/
def step (dg : List Nat → List Nat) (s : Store) (op : Op) : Store :=
  match (exec dg s op).err with
  | some _ => s
  | none => (exec dg s op).store

/-- Run a sequence of invocations. -/
def runOps (dg : List Nat → List Nat) (s : Store) (ops : List Op) : Store :=
  ops.foldl (step dg) s

/-- States the contract can be in: the empty store, closed under calls. -/
inductive Reachable (dg : List Nat → List Nat) : Store → Prop where
  | init : Reachable dg initialStore
  | next {s : Store} (h : Reachable dg s) (op : Op) : Reachable dg (step dg s op)

/-- Number of stored `VoteReveal` records of a dispute. -/
def revealCount (s : Store) (dispute_id : Nat) : Nat :=
  s.reveals.countP (fun kv => kv.1.1 == dispute_id)

/-- An identity digest used to drive concrete runs. -/
def demoDg : List Nat → List Nat := fun l => l

/-- A complete first round for dispute 1 with a single-member jury:
file, select juror 3, commit, advance, reveal for the passenger,
finalize (verdict `passenger`). -/
def demoOps : List Op :=
  [ .initCfg 1000 1 10 10 10 10 2000 2000,
    .fileDispute 0 1 2 7 1000 100,
    .selectAsJuror 11 3 1 1,
    .commitVote 12 3 1 [1, 5],
    .advanceToReveal 21 1,
    .revealVote 22 3 1 true [5],
    .finalizeDispute 31 1 ]

/-- The store after the first round, in phase `Appeal`. -/
def preAppealStore : Store := runOps demoDg initialStore demoOps

/-- The store after the losing airline's successful appeal. -/
def postAppealStore : Store := step demoDg preAppealStore (.fileAppeal 32 2 1 200)

/-- Bookkeeping invariant of the store: record keys never exceed the
dispute counter, the tallies of a never-appealed dispute count its stored
reveals, no party of a dispute is marked as one of its jurors, and no
stored `JurorSelection` slot names a party of its dispute. -/
def StoreInv (s : Store) : Prop :=
  (∀ k ∈ s.disputes.map Prod.fst, k ≤ s.dispute_count) ∧
  (∀ k ∈ s.reveals.map Prod.fst, k.1 ≤ s.dispute_count) ∧
  (∀ k ∈ s.is_juror.map Prod.fst, k.1 ≤ s.dispute_count) ∧
  (∀ i d, kvGet s.disputes i = some d → d.appealed = false →
    d.votes_for_passenger + d.votes_for_airline = revealCount s i) ∧
  (∀ i d, kvGet s.disputes i = some d →
    kvGet s.is_juror (i, d.passenger) = none ∧ kvGet s.is_juror (i, d.airline) = none) ∧
  (∀ k ∈ s.jurors.map Prod.fst, k.1 ≤ s.dispute_count) ∧
  (∀ i idx js d, kvGet s.jurors (i, idx) = some js → kvGet s.disputes i = some d →
    ¬ js.juror = d.passenger ∧ ¬ js.juror = d.airline)

/-- Between two stores: a dispute once marked appealed stays appealed. -/
def AppealedMono (s s' : Store) : Prop :=
  ∀ i d, kvGet s.disputes i = some d → d.appealed = true →
    ∃ d', kvGet s'.disputes i = some d' ∧ d'.appealed = true

/-- The reward pool computed by `execute_verdict` and `claim_juror_reward`. -/
def juryPool (d : Dispute) (cfg : DisputeConfig) : Int :=
  ((d.passenger_stake + d.airline_stake) * (cfg.jury_reward_pool_percentage : Int)).tdiv 10000

/-- The tally of the side named by the verdict. -/
def winningVotes (d : Dispute) (v : Verdict) : Nat :=
  if v = Verdict.passenger then d.votes_for_passenger else d.votes_for_airline

/-- The dispute record as rewritten by a successful `file_appeal` at time
`now`: `appealed` set, phase back to `Evidence`, the four deadlines
recomputed from `now`, tallies zeroed, verdict cleared, every other field
untouched. -/
def appealReset (d : Dispute) (now : Nat) (cfg : DisputeConfig) : Dispute :=
  { d with
    appealed := true
    phase := DisputePhase.Evidence
    evidence_deadline := now + cfg.evidence_period
    voting_deadline := now + cfg.evidence_period + cfg.voting_period
    reveal_deadline := now + cfg.evidence_period + cfg.voting_period + cfg.reveal_period
    appeal_deadline := now + cfg.evidence_period + cfg.voting_period + cfg.reveal_period
      + cfg.appeal_period
    votes_for_passenger := 0
    votes_for_airline := 0
    verdict := none }


/-- The configuration installed by the demo run. -/
def demoConfig : DisputeConfig := ⟨1000, 1, 10, 10, 10, 10, 2000, 2000⟩

/-- Dispute 1 as stored after the demo first round: finalized to `Appeal`
phase with a passenger verdict from the single reveal. -/
def preAppealDispute : Dispute :=
  { dispute_id := 1, refund_request_id := 7, passenger := 1, airline := 2
    amount := 1000, passenger_stake := 100, airline_stake := 0
    phase := DisputePhase.Appeal
    evidence_deadline := 10, voting_deadline := 20, reveal_deadline := 30
    appeal_deadline := 40
    passenger_evidence_count := 0, airline_evidence_count := 0, jury_size := 1
    votes_for_passenger := 1, votes_for_airline := 0
    verdict := some Verdict.passenger, appealed := false, created_at := 0
    finalized_at := some 31 }

/-- Dispute 1 as stored after the airline's appeal: phase back to
`Evidence`, fresh deadlines from time 32, zeroed tallies, no verdict. -/
def postAppealDispute : Dispute :=
  { dispute_id := 1, refund_request_id := 7, passenger := 1, airline := 2
    amount := 1000, passenger_stake := 100, airline_stake := 0
    phase := DisputePhase.Evidence
    evidence_deadline := 42, voting_deadline := 52, reveal_deadline := 62
    appeal_deadline := 72
    passenger_evidence_count := 0, airline_evidence_count := 0, jury_size := 1
    votes_for_passenger := 0, votes_for_airline := 0
    verdict := none, appealed := true, created_at := 0
    finalized_at := some 31 }

/-- A dispute sitting in the reveal phase. -/
def revealDispute : Dispute :=
  { dispute_id := 1, refund_request_id := 7, passenger := 1, airline := 2
    amount := 1000, passenger_stake := 100, airline_stake := 0
    phase := DisputePhase.RevealVote
    evidence_deadline := 10, voting_deadline := 20, reveal_deadline := 30
    appeal_deadline := 40
    passenger_evidence_count := 0, airline_evidence_count := 0, jury_size := 1
    votes_for_passenger := 0, votes_for_airline := 0
    verdict := none, appealed := false, created_at := 0, finalized_at := none }

/-- Juror 3's commitment under the identity digest: vote byte 1 then salt. -/
def revealCommit : VoteCommit := ⟨1, 3, [1, 5], 12⟩

/-- A store holding `revealDispute` and juror 3's commitment. -/
def revealStore : Store :=
  { config := some demoConfig, dispute_count := 1
    disputes := [(1, revealDispute)], evidences := [], jurors := []
    is_juror := [], commits := [((1, 3), revealCommit)], reveals := []
    stakes := [] }

/-- Configuration of the spec's reward example: jury of 3, 20 percent
minimum stake, 20 percent reward pool. -/
def rewardConfig : DisputeConfig := ⟨2000, 3, 10, 10, 10, 10, 2000, 2000⟩

/-- A finalized dispute with stake sum 4000 and a 2 to 1 passenger
verdict. -/
def rewardDispute : Dispute :=
  { dispute_id := 1, refund_request_id := 1, passenger := 1, airline := 2
    amount := 10000, passenger_stake := 2000, airline_stake := 2000
    phase := DisputePhase.Finalized
    evidence_deadline := 10, voting_deadline := 20, reveal_deadline := 30
    appeal_deadline := 40
    passenger_evidence_count := 0, airline_evidence_count := 0, jury_size := 3
    votes_for_passenger := 2, votes_for_airline := 1
    verdict := some Verdict.passenger, appealed := false, created_at := 0
    finalized_at := some 31 }

/-- A store for the reward example: jurors 10 and 11 revealed for the
passenger, juror 12 for the airline. -/
def rewardStore : Store :=
  { config := some rewardConfig, dispute_count := 1
    disputes := [(1, rewardDispute)], evidences := [], jurors := []
    is_juror := [], commits := []
    reveals := [((1, 10), ⟨1, 10, true, [1], 22⟩), ((1, 11), ⟨1, 11, true, [2], 23⟩),
      ((1, 12), ⟨1, 12, false, [3], 24⟩)]
    stakes := [] }

/-- A freshly configured store with no disputes. -/
def cfgOnlyStore : Store := { initialStore with config := some demoConfig }


theorem kvGet_kvSet_self {κ α : Type} [DecidableEq κ] (l : List (κ × α)) (k : κ) (v : α) :
    kvGet (kvSet l k v) k = some v := by
  induction l with
  | nil => simp [kvGet, kvSet]
  | cons hd t ih =>
    obtain ⟨k', v'⟩ := hd
    by_cases h : k' = k <;> simp [kvGet, kvSet, h, ih]

theorem kvGet_kvSet_of_ne {κ α : Type} [DecidableEq κ] (l : List (κ × α)) (k k' : κ) (v : α)
    (h : k' ≠ k) : kvGet (kvSet l k v) k' = kvGet l k' := by
  induction l with
  | nil =>
    have hne : ¬ k = k' := fun he => h he.symm
    simp [kvGet, kvSet, hne]
  | cons hd t ih =>
    obtain ⟨k0, v0⟩ := hd
    by_cases h0 : k0 = k
    · subst h0
      have hne : ¬ k0 = k' := fun he => h he.symm
      simp [kvGet, kvSet, hne]
    · by_cases h1 : k0 = k'
      · subst h1
        simp [kvGet, kvSet, h0]
      · simp [kvGet, kvSet, h0, h1, ih]

theorem mem_keys_of_kvGet {κ α : Type} [DecidableEq κ] {l : List (κ × α)} {k : κ} {v : α}
    (h : kvGet l k = some v) : k ∈ l.map Prod.fst := by
  induction l with
  | nil => simp [kvGet] at h
  | cons hd t ih =>
    obtain ⟨k0, v0⟩ := hd
    simp only [List.map_cons, List.mem_cons]
    by_cases h0 : k0 = k
    · exact Or.inl h0.symm
    · simp only [kvGet, if_neg h0] at h
      exact Or.inr (ih h)

theorem keys_kvSet_subset {κ α : Type} [DecidableEq κ] {l : List (κ × α)} {k k' : κ} {v : α}
    (h : k' ∈ (kvSet l k v).map Prod.fst) : k' = k ∨ k' ∈ l.map Prod.fst := by
  induction l with
  | nil =>
    simp only [kvSet, List.map_cons, List.map_nil, List.mem_cons, List.not_mem_nil,
      or_false] at h
    exact Or.inl h
  | cons hd t ih =>
    obtain ⟨k0, v0⟩ := hd
    simp only [List.map_cons, List.mem_cons]
    by_cases h0 : k0 = k
    · simp only [kvSet, if_pos h0, List.map_cons, List.mem_cons] at h
      rcases h with h | h
      · exact Or.inl h
      · exact Or.inr (Or.inr h)
    · simp only [kvSet, if_neg h0, List.map_cons, List.mem_cons] at h
      rcases h with h | h
      · exact Or.inr (Or.inl h)
      · rcases ih h with h | h
        · exact Or.inl h
        · exact Or.inr (Or.inr h)

theorem kvGet_eq_none_of_forall {κ α : Type} [DecidableEq κ] {l : List (κ × α)} {k : κ}
    {p : κ → Prop} (hall : ∀ x ∈ l.map Prod.fst, p x) (hk : ¬ p k) : kvGet l k = none := by
  cases h : kvGet l k with
  | none => rfl
  | some v => exact absurd (hall k (mem_keys_of_kvGet h)) hk

theorem countP_kvSet_of_none {κ α : Type} [DecidableEq κ] (l : List (κ × α)) (k : κ) (v : α)
    (p : κ × α → Bool) (h : kvGet l k = none) :
    ((kvSet l k v).countP p) = l.countP p + (if p (k, v) then 1 else 0) := by
  induction l with
  | nil => by_cases hp : p (k, v) <;> simp [kvSet, List.countP_cons, hp]
  | cons hd t ih =>
    obtain ⟨k0, v0⟩ := hd
    by_cases h0 : k0 = k
    · simp [kvGet, h0] at h
    · simp [kvGet, h0] at h
      simp [kvSet, h0, List.countP_cons, ih h]
      omega

theorem reachable_runOps {dg : List Nat → List Nat} {s : Store}
    (h : Reachable dg s) (ops : List Op) : Reachable dg (runOps dg s ops) := by
  induction ops generalizing s with
  | nil => exact h
  | cons op t ih => exact ih (h.next op)

theorem appealedMono_id (s : Store) : AppealedMono s s :=
  fun i d hg hap => ⟨d, hg, hap⟩

theorem appealedMono_trans {s1 s2 s3 : Store}
    (h12 : AppealedMono s1 s2) (h23 : AppealedMono s2 s3) : AppealedMono s1 s3 := by
  intro i d hg hap
  obtain ⟨d2, hg2, hap2⟩ := h12 i d hg hap
  exact h23 i d2 hg2 hap2

theorem claim_reward_store_eq (s : Store) (juror dispute_id : Nat) :
    (claim_juror_reward s juror dispute_id).store = s := by
  unfold claim_juror_reward
  repeat' split
  all_goals try rfl
  all_goals dsimp only
  all_goals split <;> rfl

theorem inv_of_fields_eq (s s' : Store)
    (h1 : s'.disputes = s.disputes) (h2 : s'.reveals = s.reveals)
    (h3 : s'.is_juror = s.is_juror) (h4 : s'.dispute_count = s.dispute_count)
    (h5 : s'.jurors = s.jurors)
    (h : StoreInv s) : StoreInv s' ∧ AppealedMono s s' := by
  obtain ⟨hA, hB, hC, hD, hE, hF, hG⟩ := h
  refine ⟨⟨?_, ?_, ?_, ?_, ?_, ?_, ?_⟩, ?_⟩
  · rw [h1, h4]; exact hA
  · rw [h2, h4]; exact hB
  · rw [h3, h4]; exact hC
  · intro i d hg hap
    rw [h1] at hg
    unfold revealCount
    rw [h2]
    exact hD i d hg hap
  · intro i d hg
    rw [h1] at hg
    rw [h3]
    exact hE i d hg
  · rw [h5, h4]; exact hF
  · intro i idx js d hjs hg
    rw [h5] at hjs
    rw [h1] at hg
    exact hG i idx js d hjs hg
  · intro i d hg hap
    exact ⟨d, by rw [h1]; exact hg, hap⟩

theorem inv_setDispute_gen (s s' : Store) (i : Nat) (d d' : Dispute)
    (hget : kvGet s.disputes i = some d)
    (h1 : s'.disputes = kvSet s.disputes i d')
    (h2 : s'.reveals = s.reveals) (h3 : s'.is_juror = s.is_juror)
    (h4 : s'.dispute_count = s.dispute_count)
    (h5 : s'.jurors = s.jurors)
    (hp : d'.passenger = d.passenger) (hair : d'.airline = d.airline)
    (htal : d'.appealed = false →
      d.appealed = false ∧ d'.votes_for_passenger = d.votes_for_passenger
        ∧ d'.votes_for_airline = d.votes_for_airline)
    (hmono : d.appealed = true → d'.appealed = true)
    (h : StoreInv s) : StoreInv s' ∧ AppealedMono s s' := by
  obtain ⟨hA, hB, hC, hD, hE, hF, hG⟩ := h
  have hikey : i ≤ s.dispute_count := hA i (mem_keys_of_kvGet hget)
  have hrc : ∀ j, revealCount s' j = revealCount s j := by
    intro j
    unfold revealCount
    rw [h2]
  refine ⟨⟨?_, ?_, ?_, ?_, ?_, ?_, ?_⟩, ?_⟩
  · intro k hk
    rw [h4]
    rw [h1] at hk
    rcases keys_kvSet_subset hk with rfl | hk
    · exact hikey
    · exact hA k hk
  · rw [h2, h4]; exact hB
  · rw [h3, h4]; exact hC
  · intro j e hg hap
    rw [h1] at hg
    rw [hrc]
    by_cases hij : j = i
    · subst hij
      rw [kvGet_kvSet_self] at hg
      injection hg with hg
      subst hg
      obtain ⟨hd0, hvp, hva⟩ := htal hap
      rw [hvp, hva]
      exact hD j d hget hd0
    · rw [kvGet_kvSet_of_ne _ _ _ _ hij] at hg
      exact hD j e hg hap
  · intro j e hg
    rw [h3]
    rw [h1] at hg
    by_cases hij : j = i
    · subst hij
      rw [kvGet_kvSet_self] at hg
      injection hg with hg
      subst hg
      rw [hp, hair]
      exact hE j d hget
    · rw [kvGet_kvSet_of_ne _ _ _ _ hij] at hg
      exact hE j e hg
  · rw [h5, h4]; exact hF
  · intro i2 idx js e hjs hg
    rw [h5] at hjs
    rw [h1] at hg
    by_cases hij : i2 = i
    · subst hij
      rw [kvGet_kvSet_self] at hg
      injection hg with hg
      subst hg
      rw [hp, hair]
      exact hG i2 idx js d hjs hget
    · rw [kvGet_kvSet_of_ne _ _ _ _ hij] at hg
      exact hG i2 idx js e hjs hg
  · intro j e hg hap
    by_cases hij : j = i
    · subst hij
      have he : e = d := by
        rw [hget] at hg
        injection hg with hg
        exact hg.symm
      subst he
      exact ⟨d', by rw [h1]; exact kvGet_kvSet_self _ _ _, hmono hap⟩
    · exact ⟨e, by rw [h1, kvGet_kvSet_of_ne _ _ _ _ hij]; exact hg, hap⟩

theorem inv_markJuror_gen (s s' : Store) (i j : Nat) (d : Dispute)
    (hget : kvGet s.disputes i = some d)
    (h1 : s'.disputes = s.disputes)
    (h2 : s'.reveals = s.reveals)
    (h3 : s'.is_juror = kvSet s.is_juror (i, j) true)
    (h4 : s'.dispute_count = s.dispute_count)
    (h5 : s'.jurors = s.jurors)
    (hj1 : ¬ j = d.passenger) (hj2 : ¬ j = d.airline)
    (h : StoreInv s) : StoreInv s' ∧ AppealedMono s s' := by
  obtain ⟨hA, hB, hC, hD, hE, hF, hG⟩ := h
  have hikey : i ≤ s.dispute_count := hA i (mem_keys_of_kvGet hget)
  refine ⟨⟨?_, ?_, ?_, ?_, ?_, ?_, ?_⟩, ?_⟩
  · rw [h1, h4]; exact hA
  · rw [h2, h4]; exact hB
  · intro k hk
    rw [h4]
    rw [h3] at hk
    rcases keys_kvSet_subset hk with rfl | hk
    · exact hikey
    · exact hC k hk
  · intro j2 e hg hap
    rw [h1] at hg
    have hrc : revealCount s' j2 = revealCount s j2 := by
      unfold revealCount
      rw [h2]
    rw [hrc]
    exact hD j2 e hg hap
  · intro j2 e hg
    rw [h1] at hg
    rw [h3]
    constructor
    · by_cases hkey : (j2, e.passenger) = ((i, j) : Nat × Nat)
      · exfalso
        have hj2i : j2 = i := congrArg Prod.fst hkey
        have hpe : e.passenger = j := congrArg Prod.snd hkey
        subst hj2i
        rw [hget] at hg
        injection hg with hg
        exact hj1 (hpe.symm.trans (by rw [hg]))
      · rw [kvGet_kvSet_of_ne _ _ _ _ hkey]
        exact (hE j2 e hg).1
    · by_cases hkey : (j2, e.airline) = ((i, j) : Nat × Nat)
      · exfalso
        have hj2i : j2 = i := congrArg Prod.fst hkey
        have hpe : e.airline = j := congrArg Prod.snd hkey
        subst hj2i
        rw [hget] at hg
        injection hg with hg
        exact hj2 (hpe.symm.trans (by rw [hg]))
      · rw [kvGet_kvSet_of_ne _ _ _ _ hkey]
        exact (hE j2 e hg).2
  · rw [h5, h4]; exact hF
  · intro i2 idx js e hjs hg
    rw [h5] at hjs
    rw [h1] at hg
    exact hG i2 idx js e hjs hg
  · intro j2 e hg hap
    exact ⟨e, by rw [h1]; exact hg, hap⟩

theorem inv_fileDispute_gen (s s' : Store) (nd : Dispute)
    (h1 : s'.disputes = kvSet s.disputes (s.dispute_count + 1) nd)
    (h2 : s'.reveals = s.reveals) (h3 : s'.is_juror = s.is_juror)
    (h4 : s'.dispute_count = s.dispute_count + 1)
    (h5 : s'.jurors = s.jurors)
    (hvp : nd.votes_for_passenger = 0) (hva : nd.votes_for_airline = 0)
    (h : StoreInv s) : StoreInv s' ∧ AppealedMono s s' := by
  obtain ⟨hA, hB, hC, hD, hE, hF, hG⟩ := h
  refine ⟨⟨?_, ?_, ?_, ?_, ?_, ?_, ?_⟩, ?_⟩
  · intro k hk
    rw [h4]
    rw [h1] at hk
    rcases keys_kvSet_subset hk with rfl | hk
    · exact le_refl _
    · exact (hA k hk).trans (Nat.le_succ _)
  · intro k hk
    rw [h4]
    rw [h2] at hk
    exact (hB k hk).trans (Nat.le_succ _)
  · intro k hk
    rw [h4]
    rw [h3] at hk
    exact (hC k hk).trans (Nat.le_succ _)
  · intro j e hg hap
    have hrc : revealCount s' j = revealCount s j := by
      unfold revealCount
      rw [h2]
    rw [hrc]
    rw [h1] at hg
    by_cases hij : j = s.dispute_count + 1
    · subst hij
      rw [kvGet_kvSet_self] at hg
      injection hg with hg
      subst hg
      have hzero : revealCount s (s.dispute_count + 1) = 0 := by
        unfold revealCount
        apply List.countP_eq_zero.mpr
        intro kv hkv
        have hle : kv.1.1 ≤ s.dispute_count := hB kv.1 (List.mem_map_of_mem Prod.fst hkv)
        simp only [beq_iff_eq]
        omega
      rw [hvp, hva, hzero]
    · rw [kvGet_kvSet_of_ne _ _ _ _ hij] at hg
      exact hD j e hg hap
  · intro j e hg
    rw [h3]
    rw [h1] at hg
    by_cases hij : j = s.dispute_count + 1
    · subst hij
      constructor <;>
      · apply kvGet_eq_none_of_forall (p := fun k => k.1 ≤ s.dispute_count) hC
        simp
    · rw [kvGet_kvSet_of_ne _ _ _ _ hij] at hg
      exact hE j e hg
  · intro k hk
    rw [h4]
    rw [h5] at hk
    exact (hF k hk).trans (Nat.le_succ _)
  · intro i2 idx js e hjs hg
    rw [h5] at hjs
    rw [h1] at hg
    by_cases hij : i2 = s.dispute_count + 1
    · subst hij
      have hnone : kvGet s.jurors (s.dispute_count + 1, idx) = none := by
        apply kvGet_eq_none_of_forall (p := fun k => k.1 ≤ s.dispute_count) hF
        simp
      rw [hnone] at hjs
      exact Option.noConfusion hjs
    · rw [kvGet_kvSet_of_ne _ _ _ _ hij] at hg
      exact hG i2 idx js e hjs hg
  · intro j e hg hap
    have hj : j ≤ s.dispute_count := hA j (mem_keys_of_kvGet hg)
    have hij : j ≠ s.dispute_count + 1 := by omega
    exact ⟨e, by rw [h1, kvGet_kvSet_of_ne _ _ _ _ hij]; exact hg, hap⟩

theorem inv_reveal_gen (s s' : Store) (i j : Nat) (d d' : Dispute) (rv : VoteReveal)
    (hget : kvGet s.disputes i = some d)
    (hnone : kvGet s.reveals (i, j) = none)
    (h1 : s'.disputes = kvSet s.disputes i d')
    (h2 : s'.reveals = kvSet s.reveals (i, j) rv)
    (h3 : s'.is_juror = s.is_juror)
    (h4 : s'.dispute_count = s.dispute_count)
    (h5 : s'.jurors = s.jurors)
    (happ : d'.appealed = d.appealed)
    (hp : d'.passenger = d.passenger) (hair : d'.airline = d.airline)
    (hsum : d'.votes_for_passenger + d'.votes_for_airline
      = d.votes_for_passenger + d.votes_for_airline + 1)
    (h : StoreInv s) : StoreInv s' ∧ AppealedMono s s' := by
  obtain ⟨hA, hB, hC, hD, hE, hF, hG⟩ := h
  have hikey : i ≤ s.dispute_count := hA i (mem_keys_of_kvGet hget)
  have hrc : ∀ x, revealCount s' x
      = revealCount s x + (if (i == x) then 1 else 0) := by
    intro x
    unfold revealCount
    rw [h2]
    exact countP_kvSet_of_none _ _ _ _ hnone
  refine ⟨⟨?_, ?_, ?_, ?_, ?_, ?_, ?_⟩, ?_⟩
  · intro k hk
    rw [h4]
    rw [h1] at hk
    rcases keys_kvSet_subset hk with rfl | hk
    · exact hikey
    · exact hA k hk
  · intro k hk
    rw [h4]
    rw [h2] at hk
    rcases keys_kvSet_subset hk with rfl | hk
    · exact hikey
    · exact hB k hk
  · rw [h3, h4]; exact hC
  · intro x e hg hap
    rw [hrc x]
    rw [h1] at hg
    by_cases hix : x = i
    · subst hix
      rw [kvGet_kvSet_self] at hg
      injection hg with hg
      subst hg
      have hd0 : d.appealed = false := by rw [← happ]; exact hap
      have hold := hD x d hget hd0
      simp only [beq_self_eq_true, if_true]
      omega
    · rw [kvGet_kvSet_of_ne _ _ _ _ hix] at hg
      have hbf : (i == x) = false := by
        simp only [beq_eq_false_iff_ne, ne_eq]
        exact fun he => hix he.symm
      rw [hbf]
      simpa using hD x e hg hap
  · intro x e hg
    rw [h3]
    rw [h1] at hg
    by_cases hix : x = i
    · subst hix
      rw [kvGet_kvSet_self] at hg
      injection hg with hg
      subst hg
      rw [hp, hair]
      exact hE _ d hget
    · rw [kvGet_kvSet_of_ne _ _ _ _ hix] at hg
      exact hE x e hg
  · rw [h5, h4]; exact hF
  · intro i2 idx js e hjs hg
    rw [h5] at hjs
    rw [h1] at hg
    by_cases hij : i2 = i
    · subst hij
      rw [kvGet_kvSet_self] at hg
      injection hg with hg
      subst hg
      rw [hp, hair]
      exact hG i2 idx js d hjs hget
    · rw [kvGet_kvSet_of_ne _ _ _ _ hij] at hg
      exact hG i2 idx js e hjs hg
  · intro x e hg hap
    by_cases hix : x = i
    · subst hix
      have he : e = d := by
        rw [hget] at hg
        injection hg with hg
        exact hg.symm
      subst he
      exact ⟨d', by rw [h1]; exact kvGet_kvSet_self _ _ _, happ.trans hap⟩
    · exact ⟨e, by rw [h1, kvGet_kvSet_of_ne _ _ _ _ hix]; exact hg, hap⟩

theorem inv_setJuror_gen (s s' : Store) (i idx : Nat) (sel : JurorSelection) (d : Dispute)
    (hget : kvGet s.disputes i = some d)
    (h1 : s'.disputes = s.disputes)
    (h2 : s'.reveals = s.reveals)
    (h3 : s'.is_juror = s.is_juror)
    (h4 : s'.dispute_count = s.dispute_count)
    (h5 : s'.jurors = kvSet s.jurors (i, idx) sel)
    (hj1 : ¬ sel.juror = d.passenger) (hj2 : ¬ sel.juror = d.airline)
    (h : StoreInv s) : StoreInv s' ∧ AppealedMono s s' := by
  obtain ⟨hA, hB, hC, hD, hE, hF, hG⟩ := h
  have hikey : i ≤ s.dispute_count := hA i (mem_keys_of_kvGet hget)
  refine ⟨⟨?_, ?_, ?_, ?_, ?_, ?_, ?_⟩, ?_⟩
  · rw [h1, h4]; exact hA
  · rw [h2, h4]; exact hB
  · rw [h3, h4]; exact hC
  · intro j2 e hg hap
    rw [h1] at hg
    have hrc : revealCount s' j2 = revealCount s j2 := by
      unfold revealCount
      rw [h2]
    rw [hrc]
    exact hD j2 e hg hap
  · intro j2 e hg
    rw [h1] at hg
    rw [h3]
    exact hE j2 e hg
  · intro k hk
    rw [h4]
    rw [h5] at hk
    rcases keys_kvSet_subset hk with rfl | hk
    · exact hikey
    · exact hF k hk
  · intro i2 idx2 js e hjs hg
    rw [h5] at hjs
    rw [h1] at hg
    by_cases hkey : ((i2, idx2) : Nat × Nat) = (i, idx)
    · have hii : i2 = i := congrArg Prod.fst hkey
      subst hii
      rw [hkey, kvGet_kvSet_self] at hjs
      injection hjs with hjs
      subst hjs
      have he : e = d := by
        rw [hget] at hg
        injection hg with hg
        exact hg.symm
      subst he
      exact ⟨hj1, hj2⟩
    · rw [kvGet_kvSet_of_ne _ _ _ _ hkey] at hjs
      exact hG i2 idx2 js e hjs hg
  · intro j2 e hg hap
    exact ⟨e, by rw [h1]; exact hg, hap⟩

theorem inv_select_tail (s s1 : Store) (i j jc now0 : Nat) (tb : Int) (dd : Dispute)
    (hbase : StoreInv s1 ∧ AppealedMono s s1)
    (hget1 : kvGet s1.disputes i = some dd)
    (hj1 : ¬ j = dd.passenger) (hj2 : ¬ j = dd.airline) :
    (StoreInv (markJuror (setJuror s1 i jc ⟨i, j, tb, now0⟩) i j)
      ∧ AppealedMono s (markJuror (setJuror s1 i jc ⟨i, j, tb, now0⟩) i j))
    ∧ (StoreInv (setDispute (markJuror (setJuror s1 i jc ⟨i, j, tb, now0⟩) i j) i
        { dd with phase := DisputePhase.CommitVote })
      ∧ AppealedMono s (setDispute (markJuror (setJuror s1 i jc ⟨i, j, tb, now0⟩) i j) i
        { dd with phase := DisputePhase.CommitVote })) := by
  obtain ⟨h1, hm1⟩ := hbase
  have h2 := inv_setJuror_gen s1 (setJuror s1 i jc ⟨i, j, tb, now0⟩) i jc
    (⟨i, j, tb, now0⟩ : JurorSelection) dd hget1 rfl rfl rfl rfl rfl hj1 hj2 h1
  have h3 := inv_markJuror_gen (setJuror s1 i jc ⟨i, j, tb, now0⟩)
    (markJuror (setJuror s1 i jc ⟨i, j, tb, now0⟩) i j)
    i j dd hget1 rfl rfl rfl rfl rfl hj1 hj2 h2.1
  have hget3 : kvGet (markJuror (setJuror s1 i jc ⟨i, j, tb, now0⟩) i j).disputes i
      = some dd := hget1
  have h4 := inv_setDispute_gen (markJuror (setJuror s1 i jc ⟨i, j, tb, now0⟩) i j)
    (setDispute (markJuror (setJuror s1 i jc ⟨i, j, tb, now0⟩) i j) i
      { dd with phase := DisputePhase.CommitVote }) i dd
    ({ dd with phase := DisputePhase.CommitVote }) hget3 rfl rfl rfl rfl rfl rfl rfl
    (fun hap => ⟨hap, rfl, rfl⟩) (fun hap => hap) h3.1
  have hm3 := appealedMono_trans hm1 (appealedMono_trans h2.2 h3.2)
  exact ⟨⟨h3.1, hm3⟩, ⟨h4.1, appealedMono_trans hm3 h4.2⟩⟩

set_option maxHeartbeats 1000000 in
theorem inv_step (dg : List Nat → List Nat) (s : Store) (op : Op) (h : StoreInv s) :
    StoreInv (step dg s op) ∧ AppealedMono s (step dg s op) := by
  cases hs : (exec dg s op).err with
  | some e =>
    have hstep : step dg s op = s := by simp [step, hs]
    rw [hstep]
    exact ⟨h, appealedMono_id s⟩
  | none =>
    have hstep : step dg s op = (exec dg s op).store := by simp [step, hs]
    rw [hstep]
    cases op with
    | initCfg a1 a2 a3 a4 a5 a6 a7 a8 =>
      simp only [exec, initConfig] at hs ⊢
      split_ifs at hs ⊢
      exact inv_of_fields_eq s _ rfl rfl rfl rfl rfl h
    | fileDispute now p a rr amt stk =>
      rcases hc : s.config with _ | cfg
      · simp [exec, dropRet, file_dispute, hc] at hs
      · simp only [exec, dropRet, file_dispute, hc] at hs ⊢
        split_ifs at hs ⊢
        apply inv_fileDispute_gen s _ _ <;>
          first
            | exact rfl
            | exact h
            | skip
    | airlineRespond a i stk =>
      rcases hk : kvGet s.disputes i with _ | d
      · simp [exec, airline_respond, hk] at hs
      · rcases hc : s.config with _ | cfg
        · simp only [exec, airline_respond, hk, hc] at hs
          split_ifs at hs <;> simp_all
        · simp only [exec, airline_respond, hk, hc] at hs ⊢
          split_ifs at hs ⊢
          apply inv_setDispute_gen s _ i d _ hk <;>
            first
              | exact rfl
              | exact fun hap => ⟨hap, rfl, rfl⟩
              | exact fun hap => hap
              | exact h
              | skip
    | submitEvidence now sub i eh desc =>
      rcases hk : kvGet s.disputes i with _ | d
      · simp [exec, submit_evidence, hk] at hs
      · simp only [exec, submit_evidence, hk] at hs ⊢
        split_ifs at hs ⊢
        all_goals
          apply inv_setDispute_gen s _ i d _ hk <;>
            first
              | exact rfl
              | exact fun hap => ⟨hap, rfl, rfl⟩
              | exact fun hap => hap
              | exact h
              | skip
    | commitVote now j i ch =>
      rcases hk : kvGet s.disputes i with _ | d
      · simp [exec, commit_vote, hk] at hs
      · simp only [exec, commit_vote, hk] at hs ⊢
        split_ifs at hs ⊢
        exact inv_of_fields_eq s _ rfl rfl rfl rfl rfl h
    | advanceToReveal now i =>
      rcases hk : kvGet s.disputes i with _ | d
      · simp [exec, advance_to_reveal, hk] at hs
      · simp only [exec, advance_to_reveal, hk] at hs ⊢
        split_ifs at hs ⊢
        apply inv_setDispute_gen s _ i d _ hk <;>
          first
            | exact rfl
            | exact fun hap => ⟨hap, rfl, rfl⟩
            | exact fun hap => hap
            | exact h
            | skip
    | finalizeDispute now i =>
      rcases hk : kvGet s.disputes i with _ | d
      · simp [exec, finalize_dispute, hk] at hs
      · simp only [exec, finalize_dispute, hk] at hs ⊢
        split_ifs at hs ⊢
        all_goals
          apply inv_setDispute_gen s _ i d _ hk <;>
            first
              | exact rfl
              | exact fun hap => ⟨hap, rfl, rfl⟩
              | exact fun hap => hap
              | exact h
              | skip
    | executeVerdict now i =>
      rcases hk : kvGet s.disputes i with _ | d
      · simp [exec, execute_verdict, hk] at hs
      · rcases hv : d.verdict with _ | v
        · simp only [exec, execute_verdict, hk, hv] at hs
          split_ifs at hs <;> simp_all
        · rcases hc : s.config with _ | cfg
          · simp only [exec, execute_verdict, hk, hv, setDispute, hc] at hs
            split_ifs at hs <;> simp_all
          · simp only [exec, execute_verdict, hk, hv, setDispute, hc] at hs ⊢
            split_ifs at hs ⊢
            all_goals
              apply inv_setDispute_gen s _ i d _ hk <;>
                first
                  | exact rfl
                  | exact fun hap => ⟨hap, rfl, rfl⟩
                  | exact fun hap => hap
                  | exact h
                  | skip
    | claimReward j i =>
      simp only [exec, dropRet]
      rw [claim_reward_store_eq s j i]
      exact ⟨h, appealedMono_id s⟩
    | fileAppeal now ap i stk =>
      rcases hk : kvGet s.disputes i with _ | d
      · simp [exec, file_appeal, hk] at hs
      · rcases hv : d.verdict with _ | v
        · simp only [exec, file_appeal, hk, hv] at hs
          split_ifs at hs <;> simp_all
        · rcases hc : s.config with _ | cfg
          · simp only [exec, file_appeal, hk, hv, hc] at hs
            split_ifs at hs <;> simp_all
          · simp only [exec, file_appeal, hk, hv, hc] at hs ⊢
            split_ifs at hs ⊢
            apply inv_setDispute_gen s _ i d _ hk <;>
              first
                | exact rfl
                | exact fun hap => Bool.noConfusion hap
                | exact fun _ => rfl
                | exact h
                | skip
    | revealVote now j i vote salt =>
      rcases hk : kvGet s.disputes i with _ | d
      · simp [exec, reveal_vote, hk] at hs
      · rcases hcm : kvGet s.commits (i, j) with _ | cm
        · simp only [exec, reveal_vote, hk, hcm] at hs
          split_ifs at hs <;> simp_all
        · rcases hr : kvGet s.reveals (i, j) with _ | r
          · simp only [exec, reveal_vote, hk, hcm, hr] at hs ⊢
            split_ifs at hs ⊢
            · apply inv_reveal_gen s _ i j d _ _ hk hr
              all_goals try exact rfl
              all_goals try exact h
              show d.votes_for_passenger + 1 + d.votes_for_airline
                  = d.votes_for_passenger + d.votes_for_airline + 1
              omega
            · apply inv_reveal_gen s _ i j d _ _ hk hr
              all_goals try exact rfl
              all_goals try exact h
          · simp only [exec, reveal_vote, hk, hcm, hr] at hs
            split_ifs at hs <;> simp_all
    | selectAsJuror now j i tb =>
      rcases hk : kvGet s.disputes i with _ | d0
      · simp [exec, select_as_juror, hk] at hs
      · simp only [exec, select_as_juror, hk] at hs ⊢
        by_cases hadv : (d0.evidence_deadline < now ∧ d0.phase = DisputePhase.Evidence)
        · rw [if_pos hadv] at hs ⊢
          have hget1 : kvGet
              (setDispute s i { d0 with phase := DisputePhase.JurySelection }).disputes i
              = some { d0 with phase := DisputePhase.JurySelection } :=
            kvGet_kvSet_self _ _ _
          have hjc : get_juror_count
              (setDispute s i { d0 with phase := DisputePhase.JurySelection }) i
              = some (jurorScan
                  (setDispute s i { d0 with phase := DisputePhase.JurySelection }) i 0
                  ({ d0 with phase := DisputePhase.JurySelection } : Dispute).jury_size) := by
            unfold get_juror_count
            rw [hget1]
            rfl
          simp [hjc] at hs ⊢
          have hbase := inv_setDispute_gen s
            (setDispute s i { d0 with phase := DisputePhase.JurySelection }) i d0
            ({ d0 with phase := DisputePhase.JurySelection }) hk rfl rfl rfl rfl rfl rfl rfl
            (fun hap => ⟨hap, rfl, rfl⟩) (fun hap => hap) h
          split_ifs at hs ⊢ with hc1 hc2 hc3 hc4
          · exact (inv_select_tail s _ i j _ _ _ _ hbase hget1
              (fun he => hc3 (Or.inl he)) (fun he => hc3 (Or.inr he))).2
          · exact (inv_select_tail s _ i j _ _ _ _ hbase hget1
              (fun he => hc3 (Or.inl he)) (fun he => hc3 (Or.inr he))).1
        · rw [if_neg hadv] at hs ⊢
          have hjc : get_juror_count s i = some (jurorScan s i 0 d0.jury_size) := by
            unfold get_juror_count
            rw [hk]
            rfl
          simp only [hjc] at hs ⊢
          split_ifs at hs ⊢ with hc1 hc2 hc3 hc4 hc5 hc6
          · exact (inv_select_tail s s i j _ _ _ d0 ⟨h, appealedMono_id s⟩ hk
              (fun he => hc4 (Or.inl he)) (fun he => hc4 (Or.inr he))).2
          · exact (inv_select_tail s s i j _ _ _ d0 ⟨h, appealedMono_id s⟩ hk
              (fun he => hc4 (Or.inl he)) (fun he => hc4 (Or.inr he))).1

theorem inv_initialStore : StoreInv initialStore := by
  refine ⟨?_, ?_, ?_, ?_, ?_, ?_, ?_⟩
  · intro k hk
    simp [initialStore] at hk
  · intro k hk
    simp [initialStore] at hk
  · intro k hk
    simp [initialStore] at hk
  · intro i d hg _
    simp [initialStore, kvGet] at hg
  · intro i d hg
    simp [initialStore, kvGet] at hg
  · intro k hk
    simp [initialStore] at hk
  · intro i idx js d hjs _
    simp [initialStore, kvGet] at hjs

theorem inv_reachable {dg : List Nat → List Nat} {s : Store}
    (h : Reachable dg s) : StoreInv s := by
  induction h with
  | init => exact inv_initialStore
  | next hr op ih => exact (inv_step dg _ op ih).1

theorem appealed_stable_runOps (dg : List Nat → List Nat) (s : Store) (i : Nat)
    (d : Dispute) (h : StoreInv s) (hg : kvGet s.disputes i = some d)
    (hap : d.appealed = true) (ops : List Op) :
    ∃ d', kvGet (runOps dg s ops).disputes i = some d' ∧ d'.appealed = true := by
  induction ops generalizing s d with
  | nil => exact ⟨d, hg, hap⟩
  | cons op t ih =>
    obtain ⟨hInv, hMono⟩ := inv_step dg s op h
    obtain ⟨d1, hg1, hap1⟩ := hMono i d hg hap
    exact ih (step dg s op) d1 hInv hg1 hap1

theorem select_party_fails (s : Store) (now j i : Nat) (tb : Int) (d : Dispute)
    (hd : kvGet s.disputes i = some d)
    (hj : j = d.passenger ∨ j = d.airline) :
    ((select_as_juror s now j i tb).err).isSome = true := by
  simp only [select_as_juror, hd]
  by_cases hadv : (d.evidence_deadline < now ∧ d.phase = DisputePhase.Evidence)
  · rw [if_pos hadv]
    rcases hjc : get_juror_count
        (setDispute s i { d with phase := DisputePhase.JurySelection }) i with _ | jc <;>
      simp only [hjc] <;> split_ifs <;> first | rfl | simp_all
  · rw [if_neg hadv]
    rcases hjc : get_juror_count s i with _ | jc <;>
      simp only [hjc] <;> split_ifs <;> first | rfl | simp_all

/-- Claim C1 (code bug): after the demo's successful appeal, once the new
evidence deadline (42) has passed, every juror who is not a party and was
not on the round-one panel fails `select_as_juror` with `JuryFull`: the
round-one slots still fill the panel, so the second round the appeal is
supposed to start can never select a jury. -/
theorem claim1_second_round_jury_selection_blocked (now juror : Nat) (tb : Int)
    (hnow : 42 < now) (hj1 : juror ≠ 1) (hj2 : juror ≠ 2) (hj3 : juror ≠ 3)
    (htb : 0 < tb) :
    (select_as_juror postAppealStore now juror 1 tb).err = some Err.JuryFull := by
  have hd : kvGet postAppealStore.disputes 1 = some postAppealDispute := by decide
  have hisj : postAppealStore.is_juror = [((1, 3), true)] := by decide
  have hjur : postAppealStore.jurors = [((1, 0), ⟨1, 3, 1, 11⟩)] := by decide
  simp only [select_as_juror, hd]
  rw [if_pos (⟨hnow, rfl⟩ : postAppealDispute.evidence_deadline < now
      ∧ postAppealDispute.phase = DisputePhase.Evidence)]
  simp [setDispute, get_juror_count, jurorScan, kvGet_kvSet_self, kvGet, hisj, hjur,
    postAppealDispute, htb, hj1, hj2, Ne.symm hj3]

theorem claim1_witness :
    (select_as_juror postAppealStore 43 4 1 1).err = some Err.JuryFull :=
  claim1_second_round_jury_selection_blocked 43 4 1 (by decide) (by decide) (by decide)
    (by decide) (by decide)

/-- Claim C2, counterexample: after the demo run ending in `file_appeal`,
dispute 1 has tally sum 0 but one stored `VoteReveal` record, so the sum of
the tallies does not equal the reveal count after every operation
sequence. -/
theorem claim2_counterexample :
    kvGet postAppealStore.disputes 1 = some postAppealDispute
    ∧ postAppealDispute.votes_for_passenger + postAppealDispute.votes_for_airline
        ≠ revealCount postAppealStore 1 := by
  constructor
  · decide
  · decide

/-- Claim C2, amended: in every reachable store, for every stored dispute
that has not been appealed, `votes_for_passenger + votes_for_airline`
equals the number of stored `VoteReveal` records of that dispute. -/
theorem claim2_tally_invariant_unappealed (dg : List Nat → List Nat) (s : Store)
    (i : Nat) (d : Dispute) (hreach : Reachable dg s)
    (hd : kvGet s.disputes i = some d) (hap : d.appealed = false) :
    d.votes_for_passenger + d.votes_for_airline = revealCount s i :=
  (inv_reachable hreach).2.2.2.1 i d hd hap

theorem claim2_witness :
    kvGet preAppealStore.disputes 1 = some preAppealDispute
    ∧ preAppealDispute.appealed = false
    ∧ preAppealDispute.votes_for_passenger + preAppealDispute.votes_for_airline
        = revealCount preAppealStore 1 :=
  ⟨by decide, by decide,
    claim2_tally_invariant_unappealed demoDg preAppealStore 1 preAppealDispute
      (reachable_runOps Reachable.init demoOps) (by decide) (by decide)⟩

/-- Claim C3: every public call of the module is atomic: whenever the body
of an invocation reports a failure, the transactional `step` leaves the
whole store, the phase field included, exactly as it was before the
call. -/
theorem claim3_calls_atomic (dg : List Nat → List Nat) (s : Store) (op : Op)
    (h : ((exec dg s op).err).isSome = true) : step dg s op = s := by
  cases he : (exec dg s op).err with
  | some e => simp [step, he]
  | none => rw [he] at h; simp at h

theorem claim3_witness :
    step demoDg postAppealStore (Op.selectAsJuror 43 4 1 1) = postAppealStore :=
  claim3_calls_atomic demoDg postAppealStore (Op.selectAsJuror 43 4 1 1) (by decide)

/-- Claim C6: `claim_juror_reward` writes nothing: its store is the input
store, so a repeated call returns exactly the same result as the first
and no already-claimed flag is ever set. -/
theorem claim6_reward_claim_repeatable (s : Store) (juror dispute_id : Nat) :
    (claim_juror_reward s juror dispute_id).store = s
    ∧ claim_juror_reward ((claim_juror_reward s juror dispute_id).store) juror dispute_id
        = claim_juror_reward s juror dispute_id :=
  ⟨claim_reward_store_eq s juror dispute_id,
    by rw [claim_reward_store_eq s juror dispute_id]⟩

/-- Claim C4: for a juror with a stored commit, in phase `RevealVote`
before the reveal deadline and with no prior reveal, `reveal_vote`
succeeds exactly when the digest of the vote byte followed by the salt
equals the stored commit hash, and a mismatch fails with
`InvalidReveal`. -/
theorem claim4_reveal_commit_binding (dg : List Nat → List Nat) (s : Store)
    (now juror dispute_id : Nat) (vote : Bool) (salt : List Nat)
    (d : Dispute) (c : VoteCommit)
    (hd : kvGet s.disputes dispute_id = some d)
    (hph : d.phase = DisputePhase.RevealVote)
    (hnow : now ≤ d.reveal_deadline)
    (hc : kvGet s.commits (dispute_id, juror) = some c)
    (hnr : kvGet s.reveals (dispute_id, juror) = none) :
    ((reveal_vote dg s now juror dispute_id vote salt).err = none
      ↔ dg (hashInput vote salt) = c.commit_hash)
    ∧ (¬ dg (hashInput vote salt) = c.commit_hash →
        (reveal_vote dg s now juror dispute_id vote salt).err = some Err.InvalidReveal) := by
  constructor
  · by_cases hh : dg (hashInput vote salt) = c.commit_hash <;>
      simp [reveal_vote, hd, hc, hnr, hph, hnow, hh]
  · intro hh
    simp [reveal_vote, hd, hc, hnr, hph, hnow, hh]

theorem claim4_witness :
    kvGet revealStore.disputes 1 = some revealDispute
    ∧ revealDispute.phase = DisputePhase.RevealVote
    ∧ (22 : Nat) ≤ revealDispute.reveal_deadline
    ∧ kvGet revealStore.commits (1, 3) = some revealCommit
    ∧ kvGet revealStore.reveals (1, 3) = none
    ∧ ((reveal_vote demoDg revealStore 22 3 1 true [5]).err = none
        ↔ demoDg (hashInput true [5]) = revealCommit.commit_hash)
    ∧ (¬ demoDg (hashInput false [5]) = revealCommit.commit_hash →
        (reveal_vote demoDg revealStore 22 3 1 false [5]).err = some Err.InvalidReveal) :=
  ⟨by decide, by decide, by decide, by decide, by decide,
    (claim4_reveal_commit_binding demoDg revealStore 22 3 1 true [5] revealDispute
      revealCommit (by decide) (by decide) (by decide) (by decide) (by decide)).1,
    (claim4_reveal_commit_binding demoDg revealStore 22 3 1 false [5] revealDispute
      revealCommit (by decide) (by decide) (by decide) (by decide) (by decide)).2⟩

/-- Claim C7: with an initialized config, `file_dispute` fails with
`InsufficientStake` exactly when the offered stake is below
`amount * min_stake_percentage / 10000` (truncating division); otherwise
it allocates the next 1-based id, stores the dispute in phase `Evidence`
and records the stake. -/
theorem claim7_file_dispute_stake_floor (s : Store) (now passenger airline rr : Nat)
    (amount stake : Int) (cfg : DisputeConfig) (hcfg : s.config = some cfg) :
    ((file_dispute s now passenger airline rr amount stake).err = some Err.InsufficientStake
      ↔ stake < (amount * (cfg.min_stake_percentage : Int)).tdiv 10000)
    ∧ ((amount * (cfg.min_stake_percentage : Int)).tdiv 10000 ≤ stake →
        (file_dispute s now passenger airline rr amount stake).err = none
        ∧ (file_dispute s now passenger airline rr amount stake).ret = s.dispute_count + 1
        ∧ (file_dispute s now passenger airline rr amount stake).store.dispute_count
            = s.dispute_count + 1
        ∧ (∃ d : Dispute,
            kvGet (file_dispute s now passenger airline rr amount stake).store.disputes
              (s.dispute_count + 1) = some d
            ∧ d.dispute_id = s.dispute_count + 1 ∧ d.phase = DisputePhase.Evidence
            ∧ d.passenger_stake = stake ∧ d.appealed = false)
        ∧ kvGet (file_dispute s now passenger airline rr amount stake).store.stakes
            (s.dispute_count + 1, passenger) = some stake) := by
  constructor
  · by_cases hlt : stake < (amount * (cfg.min_stake_percentage : Int)).tdiv 10000 <;>
      simp [file_dispute, hcfg, hlt]
  · intro hge
    have hlt : ¬ stake < (amount * (cfg.min_stake_percentage : Int)).tdiv 10000 :=
      not_lt.mpr hge
    simp [file_dispute, hcfg, hlt, setDispute, setStake, kvGet_kvSet_self]

theorem claim7_witness :
    cfgOnlyStore.config = some demoConfig
    ∧ ((file_dispute cfgOnlyStore 0 1 2 7 1000 100).err = some Err.InsufficientStake
        ↔ (100 : Int) < (1000 * (demoConfig.min_stake_percentage : Int)).tdiv 10000)
    ∧ (file_dispute cfgOnlyStore 0 1 2 7 1000 100).err = none
    ∧ (file_dispute cfgOnlyStore 0 1 2 7 1000 100).ret = 1
    ∧ (file_dispute cfgOnlyStore 0 1 2 7 1000 99).err = some Err.InsufficientStake :=
  ⟨by decide,
    (claim7_file_dispute_stake_floor cfgOnlyStore 0 1 2 7 1000 100 demoConfig (by decide)).1,
    by decide, by decide, by decide⟩

/-- Claim C5: on a finalized non-tie dispute, a majority juror's
`claim_juror_reward` returns the truncated quotient of the stake-funded
pool by the winning tally, and the winning tally times that quotient is
the pool minus its remainder, so equal claims by all majority jurors sum
to `pool - pool mod majority_count`. -/
theorem claim5_reward_division (s : Store) (juror dispute_id : Nat) (d : Dispute)
    (rv : VoteReveal) (v : Verdict) (cfg : DisputeConfig)
    (hd : kvGet s.disputes dispute_id = some d)
    (hph : d.phase = DisputePhase.Finalized)
    (hrv : kvGet s.reveals (dispute_id, juror) = some rv)
    (hv : d.verdict = some v)
    (hcor : (v = Verdict.passenger ∧ rv.vote_for_passenger = true)
        ∨ (v = Verdict.airline ∧ rv.vote_for_passenger = false))
    (hcfg : s.config = some cfg)
    (hm : 0 < winningVotes d v) :
    (claim_juror_reward s juror dispute_id).err = none
    ∧ (claim_juror_reward s juror dispute_id).ret
        = (juryPool d cfg).tdiv (winningVotes d v : Int)
    ∧ (winningVotes d v : Int) * (juryPool d cfg).tdiv (winningVotes d v : Int)
        = juryPool d cfg - (juryPool d cfg).tmod (winningVotes d v : Int) := by
  have hid : (winningVotes d v : Int) * (juryPool d cfg).tdiv (winningVotes d v : Int)
      = juryPool d cfg - (juryPool d cfg).tmod (winningVotes d v : Int) := by
    have := Int.tdiv_add_tmod (juryPool d cfg) (winningVotes d v : Int)
    omega
  have hm' : ¬ winningVotes d v = 0 := Nat.pos_iff_ne_zero.mp hm
  rcases hcor with ⟨hv1, hb⟩ | ⟨hv1, hb⟩ <;> subst hv1 <;>
    simp_all [claim_juror_reward, hd, hph, hrv, hv, hb, hcfg, winningVotes, juryPool]

theorem claim5_witness :
    juryPool rewardDispute rewardConfig = 800
    ∧ winningVotes rewardDispute Verdict.passenger = 2
    ∧ (claim_juror_reward rewardStore 10 1).ret = 400
    ∧ (claim_juror_reward rewardStore 11 1).ret = 400
    ∧ (claim_juror_reward rewardStore 10 1).ret + (claim_juror_reward rewardStore 11 1).ret
        = juryPool rewardDispute rewardConfig
          - (juryPool rewardDispute rewardConfig).tmod 2
    ∧ ((claim_juror_reward rewardStore 10 1).err = none
        ∧ (claim_juror_reward rewardStore 10 1).ret
            = (juryPool rewardDispute rewardConfig).tdiv
                (winningVotes rewardDispute Verdict.passenger : Int)
        ∧ (winningVotes rewardDispute Verdict.passenger : Int)
            * (juryPool rewardDispute rewardConfig).tdiv
                (winningVotes rewardDispute Verdict.passenger : Int)
          = juryPool rewardDispute rewardConfig
            - (juryPool rewardDispute rewardConfig).tmod
                (winningVotes rewardDispute Verdict.passenger : Int)) :=
  ⟨by decide, by decide, by decide, by decide, by decide,
    claim5_reward_division rewardStore 10 1 rewardDispute ⟨1, 10, true, [1], 22⟩
      Verdict.passenger rewardConfig (by decide) (by decide) (by decide) (by decide)
      (Or.inl ⟨rfl, rfl⟩) (by decide) (by decide)⟩

/-- Claim C10: `execute_verdict` applies no phase precondition outside
phase `Appeal`: on a dispute already `Finalized` with a non-tie verdict it
succeeds at any timestamp, leaves the stored record unchanged, and emits
the verdict-executed notification again. -/
theorem claim10_execute_verdict_finalized (s : Store) (now dispute_id : Nat) (d : Dispute)
    (v : Verdict) (cfg : DisputeConfig)
    (hd : kvGet s.disputes dispute_id = some d)
    (hph : d.phase = DisputePhase.Finalized)
    (hv : d.verdict = some v) (hnt : ¬ v = Verdict.tie)
    (hcfg : s.config = some cfg) :
    (execute_verdict s now dispute_id).err = none
    ∧ kvGet (execute_verdict s now dispute_id).store.disputes dispute_id = some d
    ∧ (execute_verdict s now dispute_id).events
        = [Event.verdictExecuted dispute_id
            (if v = Verdict.passenger then d.passenger else d.airline)
            (if v = Verdict.passenger then d.airline else d.passenger)
            d.amount
            (((d.passenger_stake + d.airline_stake)
              * (cfg.jury_reward_pool_percentage : Int)).tdiv 10000)] := by
  obtain ⟨d1, d2, d3, d4, d5, d6, d7, d8, d9, d10, d11,
    d12, d13, d14, d15, d16, d17, d18, d19, d20, d21⟩ := d
  subst hph
  subst hv
  by_cases hvp : v = Verdict.passenger <;>
    simp [execute_verdict, hd, hnt, hcfg, hvp, setDispute, kvGet_kvSet_self]

theorem claim10_witness :
    kvGet rewardStore.disputes 1 = some rewardDispute
    ∧ rewardDispute.phase = DisputePhase.Finalized
    ∧ rewardDispute.verdict = some Verdict.passenger
    ∧ ((execute_verdict rewardStore 5 1).err = none
        ∧ kvGet (execute_verdict rewardStore 5 1).store.disputes 1 = some rewardDispute
        ∧ (execute_verdict rewardStore 5 1).events
            = [Event.verdictExecuted 1
                (if Verdict.passenger = Verdict.passenger then rewardDispute.passenger
                  else rewardDispute.airline)
                (if Verdict.passenger = Verdict.passenger then rewardDispute.airline
                  else rewardDispute.passenger)
                rewardDispute.amount
                (((rewardDispute.passenger_stake + rewardDispute.airline_stake)
                  * (rewardConfig.jury_reward_pool_percentage : Int)).tdiv 10000)]) :=
  ⟨by decide, by decide, by decide,
    claim10_execute_verdict_finalized rewardStore 5 1 rewardDispute Verdict.passenger
      rewardConfig (by decide) (by decide) (by decide) (by decide) (by decide)⟩

/-- Claim C8: in every reachable store, neither party of a stored dispute
is in its juror membership set, no stored `JurorSelection` slot record of
the dispute names either party as its juror, and `select_as_juror` called
with the claimant or the respondent as juror always fails. -/
theorem claim8_party_never_juror (dg : List Nat → List Nat) (s : Store) (i : Nat)
    (d : Dispute) (hreach : Reachable dg s) (hd : kvGet s.disputes i = some d) :
    kvGet s.is_juror (i, d.passenger) = none
    ∧ kvGet s.is_juror (i, d.airline) = none
    ∧ (∀ idx js, kvGet s.jurors (i, idx) = some js →
        ¬ js.juror = d.passenger ∧ ¬ js.juror = d.airline)
    ∧ (∀ now tb, ((select_as_juror s now d.passenger i tb).err).isSome = true
        ∧ ((select_as_juror s now d.airline i tb).err).isSome = true) := by
  have hinv := inv_reachable hreach
  have hE := hinv.2.2.2.2.1 i d hd
  exact ⟨hE.1, hE.2, fun idx js hjs => hinv.2.2.2.2.2.2 i idx js d hjs hd, fun now tb =>
    ⟨select_party_fails s now d.passenger i tb d hd (Or.inl rfl),
      select_party_fails s now d.airline i tb d hd (Or.inr rfl)⟩⟩

theorem claim8_witness :
    kvGet postAppealStore.disputes 1 = some postAppealDispute
    ∧ kvGet postAppealStore.is_juror (1, postAppealDispute.passenger) = none
    ∧ kvGet postAppealStore.is_juror (1, postAppealDispute.airline) = none
    ∧ kvGet postAppealStore.jurors (1, 0) = some (⟨1, 3, 1, 11⟩ : JurorSelection)
    ∧ (¬ (⟨1, 3, 1, 11⟩ : JurorSelection).juror = postAppealDispute.passenger
        ∧ ¬ (⟨1, 3, 1, 11⟩ : JurorSelection).juror = postAppealDispute.airline)
    ∧ ((select_as_juror postAppealStore 50 postAppealDispute.passenger 1 5).err).isSome
        = true
    ∧ ((select_as_juror postAppealStore 50 postAppealDispute.airline 1 5).err).isSome
        = true := by
  have h := claim8_party_never_juror demoDg postAppealStore 1 postAppealDispute
    ((reachable_runOps Reachable.init demoOps).next (Op.fileAppeal 32 2 1 200))
    (by decide)
  exact ⟨by decide, h.1, h.2.1, by decide, h.2.2.1 0 ⟨1, 3, 1, 11⟩ (by decide),
    (h.2.2.2 50 5).1, (h.2.2.2 50 5).2⟩

/-- Claim C9: a successful `file_appeal` stores exactly `appealReset d now
cfg` (tallies zeroed, verdict cleared, phase `Evidence`, deadlines
recomputed from now, `appealed := true`, every other field untouched);
`appealed` stays true under every subsequent operation sequence, and any
second `file_appeal` on the dispute fails. -/
theorem claim9_appeal_reset_effects (s : Store) (now ap i : Nat) (stk : Int)
    (d : Dispute) (v : Verdict) (cfg : DisputeConfig)
    (hinv : StoreInv s)
    (hd : kvGet s.disputes i = some d)
    (hnow : now ≤ d.appeal_deadline)
    (hph : d.phase = DisputePhase.Appeal)
    (hap : d.appealed = false)
    (hv : d.verdict = some v)
    (hlose : (v = Verdict.airline ∧ ap = d.passenger)
        ∨ (v = Verdict.passenger ∧ ap = d.airline))
    (hcfg : s.config = some cfg)
    (hstk : (d.amount * (cfg.appeal_stake_multiplier : Int)).tdiv 10000 ≤ stk) :
    (file_appeal s now ap i stk).err = none
    ∧ kvGet (file_appeal s now ap i stk).store.disputes i = some (appealReset d now cfg)
    ∧ (∀ dg ops, ∃ d', kvGet (runOps dg (file_appeal s now ap i stk).store ops).disputes i
          = some d' ∧ d'.appealed = true)
    ∧ (∀ now2 ap2 stk2,
        ((file_appeal (file_appeal s now ap i stk).store now2 ap2 i stk2).err).isSome
          = true) := by
  have hout : file_appeal s now ap i stk
      = ⟨none,
          setStake (setDispute s i (appealReset d now cfg)) i ap
            ((kvGet (setDispute s i (appealReset d now cfg)).stakes (i, ap)).getD 0 + stk),
          [Event.appealFiled i ap stk], ()⟩ := by
    simp [file_appeal, hd, hv, hcfg, hph, hap, hnow, not_lt.mpr hstk, hlose, appealReset]
  have hget2 : kvGet (file_appeal s now ap i stk).store.disputes i
      = some (appealReset d now cfg) := by
    rw [hout]
    exact kvGet_kvSet_self _ _ _
  refine ⟨by rw [hout], hget2, ?_, ?_⟩
  · intro dg ops
    have hstep : step dg s (Op.fileAppeal now ap i stk)
        = (file_appeal s now ap i stk).store := by
      simp [step, exec, hout]
    have hinv2 : StoreInv (file_appeal s now ap i stk).store := by
      rw [← hstep]
      exact (inv_step dg s (Op.fileAppeal now ap i stk) hinv).1
    exact appealed_stable_runOps dg _ i (appealReset d now cfg) hinv2 hget2 rfl ops
  · intro now2 ap2 stk2
    rw [hout]
    have hg : kvGet (setStake (setDispute s i (appealReset d now cfg)) i ap
        ((kvGet (setDispute s i (appealReset d now cfg)).stakes (i, ap)).getD 0
          + stk)).disputes i
        = some (appealReset d now cfg) := kvGet_kvSet_self _ _ _
    simp only [file_appeal, hg]
    split_ifs <;> first | rfl | simp_all [appealReset]

theorem claim9_witness :
    (file_appeal preAppealStore 32 2 1 200).err = none
    ∧ kvGet (file_appeal preAppealStore 32 2 1 200).store.disputes 1
        = some (appealReset preAppealDispute 32 demoConfig)
    ∧ ((file_appeal (file_appeal preAppealStore 32 2 1 200).store 33 1 1 999).err).isSome
        = true := by
  have h := claim9_appeal_reset_effects preAppealStore 32 2 1 200 preAppealDispute
    Verdict.passenger demoConfig
    (inv_reachable (reachable_runOps Reachable.init demoOps))
    (by decide) (by decide) (by decide) (by decide) (by decide)
    (Or.inr ⟨rfl, by decide⟩) (by decide) (by decide)
  exact ⟨h.1, h.2.1, h.2.2.2 33 1 999⟩
